import Mathlib

/-!
Verification of the bulk-indexing pipeline of the pysolrq library
(`pysolrq/solr.py`, class `SolrControl`).

The Python code is shallowly embedded as executable Lean functions:

* `pyStrip` / `pyStripChars` / `pyRstripChars` model Python's
  `str.strip()`, `str.strip(' ')` and `str.rstrip('\n')`;
* `clean` models `SolrControl._clean`;
* `buildRecord` models the dictionary construction loop of
  `SolrControl._get_data` (`for idx, value in enumerate(values):
  d[fields[idx]] = value`); an out-of-range index (Python `IndexError`)
  is modelled by `none`;
* `get_doc` models `SolrControl._get_doc`, with the value consumed from
  `uuid.uuid4()` passed in explicitly as the `uid` argument;
* `get_data` models `SolrControl._get_data`;
* `data_iter` models `SolrControl._data_iter`; the in-place
  `fields.append("row")` mutation is modelled by returning the
  post-call value of the caller's `fields` list alongside the yielded
  payloads;
* `xmltostr` models `SolrControl._xmltostr`, over the list of physical
  lines of the file (each line carrying its trailing newline, as
  Python file iteration yields them);
* `start_index` models `SolrControl.start_index`, returning the
  synchronously posted payloads, the payloads submitted to the worker
  pool, the exception raised (if any), and the post-call state of the
  caller's `fields` list.
-/

namespace Pysolrq

/-- The six characters Python's `str.strip()` removes. -/
def isPySpace (c : Char) : Bool :=
  c = ' ' || c = '\t' || c = '\n' || c = '\r' || c = '\x0b' || c = '\x0c'

/-- Remove characters satisfying `p` from the left end of a string. -/
def lstripBy (p : Char → Bool) (s : String) : String :=
  ⟨s.data.dropWhile p⟩

/-- Remove characters satisfying `p` from the right end of a string. -/
def rstripBy (p : Char → Bool) (s : String) : String :=
  ⟨(s.data.reverse.dropWhile p).reverse⟩

/-- Python `value.strip()`: trim whitespace from both ends. -/
def pyStrip (s : String) : String :=
  rstripBy isPySpace (lstripBy isPySpace s)

/-- Python `line.strip(' ')`: trim space characters (only) from both ends. -/
def pyStripSpace (s : String) : String :=
  rstripBy (fun c => c = ' ') (lstripBy (fun c => c = ' ') s)

/-- Python `line.rstrip('\n')`: trim newline characters from the right end. -/
def pyRstripNewline (s : String) : String :=
  rstripBy (fun c => c = '\n') s

/-- `SolrControl._clean`: strip leading/trailing whitespace from every value. -/
def clean (values : List String) : List String :=
  values.map pyStrip

/-- Python `"|".join(values)`. -/
def pyJoin (sep : String) (xs : List String) : String :=
  String.intercalate sep xs

/-- Python dict assignment `d[k] = v` on an insertion-ordered dictionary
represented as an association list with unique keys: an existing key keeps
its position and gets the new value, a new key is appended. -/
def dictInsert : List (String × String) → String → String → List (String × String)
  | [], k, v => [(k, v)]
  | p :: rest, k, v => if p.1 = k then (k, v) :: rest else p :: dictInsert rest k v

/-- Python `d[k]` lookup (insertion-ordered dict with unique keys). -/
def lookupDict (d : List (String × String)) (k : String) : Option String :=
  match d.find? (fun p => p.1 = k) with
  | some p => some p.2
  | none => none

/-- The loop of `SolrControl._get_data`:
`for idx, value in enumerate(values): d[fields[idx]] = value`,
starting from accumulator `d` at index `idx`. `none` models the
`IndexError` Python raises when `idx` is out of range for `fields`. -/
def buildRecordAux (d : List (String × String)) (values fields : List String)
    (idx : Nat) : Option (List (String × String)) :=
  match values with
  | [] => some d
  | v :: rest =>
    match fields[idx]? with
    | none => none
    | some f => buildRecordAux (dictInsert d f v) rest fields (idx + 1)

/-- The dictionary `d` built by `SolrControl._get_data` from `values` and
`fields` (starting from the empty dict). -/
def buildRecord (values fields : List String) : Option (List (String × String)) :=
  buildRecordAux [] values fields 0

/-- One `<field name='K'>V</field>` element, as formatted by
`SolrControl._get_doc`. No escaping of any kind is applied. -/
def fieldElem (k v : String) : String :=
  "<field name='" ++ k ++ "'>" ++ v ++ "</field>"

/-- `SolrControl._get_doc`: the `uuid.uuid4()` value consumed when
`unique_id` is true is passed in as `uid`. -/
def get_doc (d : List (String × String)) (unique_id : Bool) (uid : String) : String :=
  let docs := if unique_id then fieldElem "id" uid else ""
  let docs := d.foldl (fun acc p => acc ++ fieldElem p.1 p.2) docs
  "<doc>" ++ docs ++ "</doc>"

/-- `SolrControl._get_data`: build the dict positionally, then wrap the
serialized doc in an `<add>` envelope. `none` models the `IndexError`
raised when `values` is longer than `fields`. -/
def get_data (values fields : List String) (unique_id : Bool) (uid : String) :
    Option String :=
  (buildRecord values fields).map (fun d => "<add>" ++ get_doc d unique_id uid ++ "</add>")

/-- The per-row body of `SolrControl._data_iter` (clean, optionally append
the pipe-joined row, then `_get_data`), run against the effective field
list `fields'` (which already ends in `"row"` when `keep_row` is true). -/
def encodeRow (fields' : List String) (unique_id keep_row : Bool) (uid : String)
    (row : List String) : Option String :=
  let values := clean row
  let values' := if keep_row then values ++ [pyJoin "|" values] else values
  get_data values' fields' unique_id uid

/-- The record (dict) built for one row by `SolrControl._data_iter` via
`_get_data`, against the effective field list `fields'`. -/
def encodeRowRecord (fields' : List String) (keep_row : Bool) (row : List String) :
    Option (List (String × String)) :=
  let values := clean row
  let values' := if keep_row then values ++ [pyJoin "|" values] else values
  buildRecord values' fields'

/-- `SolrControl._data_iter`: returns the sequence of yielded payloads
(`none` marking the row at which an `IndexError` escapes) and the
post-call value of the caller's `fields` list, which the generator body
mutates in place by `fields.append("row")` when `keep_row` is true. -/
def data_iter (rows : List (List String)) (fields : List String)
    (unique_id keep_row : Bool) (uids : List String) :
    List (Option String) × List String :=
  let fields' := if keep_row then fields ++ ["row"] else fields
  ((rows.zip uids).map (fun p => encodeRow fields' unique_id keep_row p.2 p.1), fields')

/-- `SolrControl._xmltostr`: fold over the physical lines of the file
(each line still carrying its `'\n'` terminator, as Python file iteration
yields them), appending `line.strip(' ').rstrip('\n')` for each. -/
def xmltostr (fileLines : List String) : String :=
  fileLines.foldl (fun acc line => acc ++ pyRstripNewline (pyStripSpace line)) ""

/-- The payloads the `for data in data_gen` loop of `start_index` submits
to the pool before an `IndexError` (a `none` element) escapes from the
generator, together with the escaped exception if any. -/
def submitUntilError : List (Option String) → List String × Option String
  | [] => ([], none)
  | none :: _ => ([], some "IndexError")
  | some s :: rest =>
    let r := submitUntilError rest
    (s :: r.1, r.2)

/-- Observable outcome of one `SolrControl.start_index` call. -/
structure RunResult where
  /-- payloads posted synchronously (the `solrxml` branch) -/
  posted : List String
  /-- payloads submitted to the worker pool (the `csv` branch) -/
  submitted : List String
  /-- the exception propagated to the caller, if any -/
  raised : Option String
  /-- the caller's `fields` list after the call (it is mutated in place
  by `_data_iter` when `keep_row` is true) -/
  fieldsAfter : Option (List String)
  deriving Repr, DecidableEq

/-- `SolrControl.start_index`. File contents are passed in explicitly:
`xmlLines` are the physical lines read in the `solrxml` branch and
`rows` the parsed csv rows read in the `csv` branch; `uids` supplies the
stream of `uuid.uuid4()` values. In the `csv` branch with `delimiter`
or `fields` equal to `None`, the code executes `raise "csv file_format
must have not None delimiter"` before touching the file. -/
def start_index (file_format : String) (xmlLines : List String)
    (rows : List (List String)) (delimiter : Option String)
    (fields : Option (List String)) (unique_id keep_row : Bool)
    (uids : List String) : RunResult :=
  if file_format = "solrxml" then
    { posted := [xmltostr xmlLines], submitted := [], raised := none,
      fieldsAfter := fields }
  else if file_format = "csv" then
    match delimiter, fields with
    | some _, some fs =>
      let it := data_iter rows fs unique_id keep_row uids
      let sub := submitUntilError it.1
      { posted := [], submitted := sub.1, raised := sub.2,
        fieldsAfter := some it.2 }
    | _, _ =>
      { posted := [], submitted := [],
        raised := some "csv file_format must have not None delimiter",
        fieldsAfter := fields }
  else
    { posted := [], submitted := [], raised := none, fieldsAfter := fields }

/-- Rendering of one record exactly as §4.4 of the specification words it:
`<add><doc>` + one `<field name='K'>V</field>` element per mapping entry,
in the record's insertion order + `</doc></add>`, with `K` and `V`
embedded verbatim (no escaping). -/
def specSerialize (d : List (String × String)) : String :=
  "<add><doc>" ++ String.join (d.map (fun p => fieldElem p.1 p.2)) ++ "</doc></add>"

/-- Per-line normalization exactly as the specification words it for the
`solrxml` mode: remove the line terminator and the incidental
leading/trailing whitespace of each physical line. -/
def specLineNorm (line : String) : String :=
  pyStrip (pyRstripNewline line)

/-- Whole-file normalization per the specification: concatenation of the
normalized physical lines. -/
def specXmlToStr (fileLines : List String) : String :=
  String.join (fileLines.map specLineNorm)

/-! Helper lemmas. -/

/-- Defining equation of `buildRecordAux` on a non-empty value list. -/
theorem buildRecordAux_cons (d : List (String × String)) (v : String)
    (rest fields : List String) (idx : Nat) :
    buildRecordAux d (v :: rest) fields idx =
      match fields[idx]? with
      | none => none
      | some f => buildRecordAux (dictInsert d f v) rest fields (idx + 1) := rfl

/-- Defining equation of `buildRecordAux` on the empty value list. -/
theorem buildRecordAux_nil (d : List (String × String)) (fields : List String)
    (idx : Nat) : buildRecordAux d [] fields idx = some d := rfl

/-- Looking up a key just assigned by `dictInsert` returns the new value. -/
theorem lookupDict_dictInsert (d : List (String × String)) (k v : String) :
    lookupDict (dictInsert d k v) k = some v := by
  induction d with
  | nil => simp [dictInsert, lookupDict]
  | cons p rest ih =>
    by_cases h : p.1 = k
    · simp [dictInsert, h, lookupDict]
    · simpa [dictInsert, h, lookupDict, List.find?_cons] using ih

/-- Folding string concatenation from a seed `s` factors the seed out. -/
theorem foldl_append_shift {α : Type} (g : α → String) :
    ∀ (l : List α) (s : String),
      l.foldl (fun acc a => acc ++ g a) s = s ++ l.foldl (fun acc a => acc ++ g a) ""
  | [], s => (String.append_empty s).symm
  | a :: l, s => by
    simp only [List.foldl_cons]
    rw [foldl_append_shift g l (s ++ g a), foldl_append_shift g l ("" ++ g a)]
    rw [String.empty_append, String.append_assoc]

/-- `String.join` of a mapped list as a fold of concatenations. -/
theorem join_map_foldl {α : Type} (g : α → String) (l : List α) :
    String.join (l.map g) = l.foldl (fun acc a => acc ++ g a) "" := by
  show (l.map g).foldl (fun x y => x ++ y) "" = _
  rw [List.foldl_map]

/-- Folding string concatenation from a seed `s` yields `s` followed by
the join of the rendered elements. -/
theorem foldl_append_join {α : Type} (g : α → String) (l : List α) (s : String) :
    l.foldl (fun acc a => acc ++ g a) s = s ++ String.join (l.map g) := by
  rw [foldl_append_shift g l s, join_map_foldl]

/-- When the running index is already past `fields` (and values remain),
the `_get_data` loop hits an `IndexError`. -/
theorem buildRecordAux_overflow (fields : List String) :
    ∀ (values : List String) (d : List (String × String)) (idx : Nat),
      values ≠ [] → fields.length < idx + values.length →
      buildRecordAux d values fields idx = none
  | [], _, _, hne, _ => absurd rfl hne
  | v :: rest, d, idx, _, hlt => by
    rw [buildRecordAux_cons]
    cases hidx : fields[idx]? with
    | none => rfl
    | some f =>
      have hidxlt : idx < fields.length := by
        by_contra hge
        rw [List.getElem?_eq_none (Nat.le_of_not_lt hge)] at hidx
        exact Option.noConfusion hidx
      cases rest with
      | nil => simp at hlt; omega
      | cons r rs =>
        exact buildRecordAux_overflow fields (r :: rs) (dictInsert d f v) (idx + 1)
          (by simp) (by simp at hlt ⊢; omega)

/-- When the remaining values fit inside `fields`, the `_get_data` loop
completes without an `IndexError`. -/
theorem buildRecordAux_some (fields : List String) :
    ∀ (values : List String) (d : List (String × String)) (idx : Nat),
      idx + values.length ≤ fields.length →
      ∃ d', buildRecordAux d values fields idx = some d'
  | [], d, _, _ => ⟨d, rfl⟩
  | v :: rest, d, idx, hle => by
    have hidxlt : idx < fields.length := by simp at hle; omega
    rw [buildRecordAux_cons, List.getElem?_eq_getElem hidxlt]
    exact buildRecordAux_some fields rest (dictInsert d fields[idx] v) (idx + 1)
      (by simp at hle ⊢; omega)

/-- Processing `values ++ [v]` is processing `values`, then one more
dict assignment at index `idx + values.length`. -/
theorem buildRecordAux_snoc (fields : List String) (v : String) :
    ∀ (values : List String) (d : List (String × String)) (idx : Nat),
      buildRecordAux d (values ++ [v]) fields idx =
        (buildRecordAux d values fields idx).bind
          (fun d' => (fields[idx + values.length]?).map (fun f => dictInsert d' f v))
  | [], d, idx => by
    rw [List.nil_append, buildRecordAux_cons]
    cases hidx : fields[idx]? with
    | none => simp [hidx]
    | some f => simp [hidx, buildRecordAux_nil]
  | w :: rest, d, idx => by
    rw [List.cons_append, buildRecordAux_cons, buildRecordAux_cons]
    cases hidx : fields[idx]? with
    | none => rfl
    | some f =>
      have hrec := buildRecordAux_snoc fields v rest (dictInsert d f w) (idx + 1)
      have harith : idx + 1 + rest.length = idx + (rest.length + 1) := by omega
      simp [hrec, harith]

/-- The `csv` branch of `start_index` with both `delimiter` and `fields`
supplied, unfolded. -/
theorem start_index_csv (xmlLines : List String) (rows : List (List String))
    (delim : String) (fs : List String) (unique_id keep_row : Bool)
    (uids : List String) :
    start_index "csv" xmlLines rows (some delim) (some fs) unique_id keep_row uids =
      { posted := [],
        submitted := (submitUntilError (data_iter rows fs unique_id keep_row uids).1).1,
        raised := (submitUntilError (data_iter rows fs unique_id keep_row uids).1).2,
        fieldsAfter := some (data_iter rows fs unique_id keep_row uids).2 } := by
  unfold start_index
  rw [if_neg (by decide), if_pos rfl]

/-! Claim theorems. -/

/-- Claim C1, counterexample: on a row with more values than schema
fields (`values = ["a", "b"]`, schema `["f"]`), `_get_data` does not
complete normally: `d[fields[1]]` raises `IndexError` (modelled by
`none`), whereas the truncated row `["a"]` yields the record
`[("f", "a")]`. The claim's "ignores the excess values and raises no
error" is false on the code. -/
theorem c1_counterexample :
    get_data ["a", "b"] ["f"] false "" = none ∧
    buildRecord ["a", "b"] ["f"] = none ∧
    buildRecord ["a"] ["f"] = some [("f", "a")] := by
  decide

/-- Claim C1, amended: for every row whose value count exceeds the
field-schema length, `_get_data` raises an `IndexError` (modelled by
`none`): no record is produced and the operation does not complete
normally. (Silent truncation happens in the opposite case only: extra
schema fields beyond the row's length are ignored.) -/
theorem c1_excess_values_error (values fields : List String) (u : Bool)
    (uid : String) (h : fields.length < values.length) :
    get_data values fields u uid = none := by
  have hne : values ≠ [] := by
    cases values with
    | nil => simp at h
    | cons a l => simp
  have hnone := buildRecordAux_overflow fields values [] 0 hne (by omega)
  simp [get_data, buildRecord, hnone]

/-- Witness for `c1_excess_values_error` at the concrete input of
`c1_counterexample`'s shape with `unique_id` enabled. -/
theorem c1_excess_values_error_witness :
    (["f"] : List String).length < (["a", "b"] : List String).length ∧
    get_data ["a", "b"] ["f"] true "u" = none :=
  ⟨by decide, c1_excess_values_error ["a", "b"] ["f"] true "u" (by decide)⟩

/-- Claim C2, counterexample: with schema `["id"]`, row `["x"]`,
`unique_id` true and generated identifier `u123`, the code emits the
synthetic `id` field FIRST and the positional `id` field after it, so
the payload is not the claim's "positional fields first, synthetic `id`
after, generated value wins": the last `id` element in the doc holds
the positional value `x`, not the generated `u123`, and the generated
value does not replace the positional one. -/
theorem c2_counterexample :
    get_data ["x"] ["id"] true "u123" =
      some "<add><doc><field name='id'>u123</field><field name='id'>x</field></doc></add>" ∧
    get_data ["x"] ["id"] true "u123" ≠
      some "<add><doc><field name='id'>x</field><field name='id'>u123</field></doc></add>" ∧
    get_data ["x"] ["id"] true "u123" ≠
      some "<add><doc><field name='id'>u123</field></doc></add>" := by
  decide

/-- Claim C2, amended: when `unique_id` is true the serialized document
contains a field named `id` holding the freshly generated identifier,
emitted BEFORE the positional fields (the synthetic `id` is applied
first, then the positional fields); if the schema itself contains a
field literally named `id`, both elements appear in the payload, the
generated one first and the positional one after it, so in a
last-occurrence-wins reading the positional value wins, not the
generated one. -/
theorem c2_id_field_first (d : List (String × String)) (uid : String) :
    get_doc d true uid =
      "<doc>" ++ fieldElem "id" uid ++
        String.join (d.map (fun p => fieldElem p.1 p.2)) ++ "</doc>" := by
  simp only [get_doc, if_pos rfl]
  rw [foldl_append_join]
  simp [String.append_assoc]

/-- Claim C3, counterexample: with configured schema `["a", "b"]` and
cleaned row `["x"]` (shorter than the schema), `keep_row` true appends
the pipe-joined value `"x"` to the values, but positional mapping
assigns it to field `b`, not to `"row"`: the produced record is
`[("a", "x"), ("b", "x")]` and contains no key `"row"`. The claim's
"for every cleaned row, the produced record contains a key row" is
false on the code. -/
theorem c3_counterexample :
    encodeRowRecord (["a", "b"] ++ ["row"]) true ["x"] =
      some [("a", "x"), ("b", "x")] ∧
    (encodeRowRecord (["a", "b"] ++ ["row"]) true ["x"]).bind
      (fun d => lookupDict d "row") = none := by
  decide

/-- Claim C3, amended: when the cleaned row has exactly as many values
as the configured schema, the effective schema is the configured schema
with `"row"` appended (length `len(fieldSchema) + 1`, with `"row"` in
the final slot), and the produced record maps the key `"row"` to the
pipe-joined concatenation of the cleaned row's values. -/
theorem c3_keep_row_matching_length (fields row : List String)
    (h : (clean row).length = fields.length) :
    (encodeRowRecord (fields ++ ["row"]) true row).bind
        (fun d => lookupDict d "row") = some (pyJoin "|" (clean row)) ∧
    (fields ++ ["row"]).length = fields.length + 1 ∧
    (fields ++ ["row"]).getLast? = some "row" := by
  refine ⟨?_, by simp, by simp⟩
  have hsnoc := buildRecordAux_snoc (fields ++ ["row"]) (pyJoin "|" (clean row))
    (clean row) [] 0
  have hsome := buildRecordAux_some (fields ++ ["row"]) (clean row) [] 0
    (by simp [h])
  obtain ⟨d', hd'⟩ := hsome
  have hrow : (fields ++ ["row"])[(0 : Nat) + (clean row).length]? = some "row" := by
    rw [Nat.zero_add, h, List.getElem?_append_right (Nat.le_refl _)]
    simp
  simp only [encodeRowRecord, buildRecord, eq_self_iff_true, if_true]
  rw [hsnoc, hd', hrow]
  simp [lookupDict_dictInsert]

/-- Witness for `c3_keep_row_matching_length` on schema
`["food", "talk"]` and raw row `[" cat ", "meow "]`. -/
theorem c3_keep_row_matching_length_witness :
    (clean [" cat ", "meow "]).length = (["food", "talk"] : List String).length ∧
    ((encodeRowRecord (["food", "talk"] ++ ["row"]) true [" cat ", "meow "]).bind
        (fun d => lookupDict d "row") =
      some (pyJoin "|" (clean [" cat ", "meow "])) ∧
    ((["food", "talk"] : List String) ++ ["row"]).length =
      (["food", "talk"] : List String).length + 1 ∧
    ((["food", "talk"] : List String) ++ ["row"]).getLast? = some "row") :=
  ⟨by decide,
   c3_keep_row_matching_length ["food", "talk"] [" cat ", "meow "] (by decide)⟩

/-- Claim C4, confirmed: schema `["food", "talk"]`, row
`[" cat ", "meow "]`, `unique_id` false, `keep_row` false: cleaning
yields `["cat", "meow"]`, encoding yields the record
`[("food", "cat"), ("talk", "meow")]`, and serialization yields exactly
the payload
`<add><doc><field name='food'>cat</field><field name='talk'>meow</field></doc></add>`. -/
theorem c4_scenario_a :
    clean [" cat ", "meow "] = ["cat", "meow"] ∧
    buildRecord (clean [" cat ", "meow "]) ["food", "talk"] =
      some [("food", "cat"), ("talk", "meow")] ∧
    get_data (clean [" cat ", "meow "]) ["food", "talk"] false "unused" =
      some "<add><doc><field name='food'>cat</field><field name='talk'>meow</field></doc></add>" := by
  decide

/-- Claim C5, confirmed: for every record `d` built by `_get_data` (with
identifier injection off), the serialized payload is exactly
`<add><doc>` followed by one `<field name='K'>V</field>` element per
record entry in insertion order followed by `</doc></add>`, with every
key and value embedded verbatim — no escaping of `<`, `>`, `&` or
quotes (`specSerialize` concatenates `K` and `V` unchanged). -/
theorem c5_serialize_record (values fields : List String) (uid : String)
    (d : List (String × String)) (h : buildRecord values fields = some d) :
    get_data values fields false uid = some (specSerialize d) := by
  have hstr : "<add>" ++ get_doc d false uid ++ "</add>" = specSerialize d := by
    simp only [get_doc, specSerialize, if_neg (show ¬(false = true) by simp)]
    rw [foldl_append_join, String.empty_append]
    rw [show ("<add><doc>" : String) = "<add>" ++ "<doc>" from rfl]
    rw [show ("</doc></add>" : String) = "</doc>" ++ "</add>" from rfl]
    simp only [String.append_assoc]
  simp only [get_data, h, Option.map]
  rw [hstr]

/-- Witness for `c5_serialize_record` on the concrete record of
scenario A (values already cleaned), with a `<`, `&` and quote in one
value to exhibit the verbatim embedding. -/
theorem c5_serialize_record_witness :
    buildRecord ["<a&'>", "meow"] ["food", "talk"] =
      some [("food", "<a&'>"), ("talk", "meow")] ∧
    get_data ["<a&'>", "meow"] ["food", "talk"] false "u" =
      some (specSerialize [("food", "<a&'>"), ("talk", "meow")]) :=
  ⟨by decide,
   c5_serialize_record ["<a&'>", "meow"] ["food", "talk"] "u"
     [("food", "<a&'>"), ("talk", "meow")] (by decide)⟩

/-- Claim C6, confirmed: calling `start_index` with the `csv` file
format while `delimiter` or `fields` is `None` raises synchronously
(`raise "csv file_format must have not None delimiter"`), before any
row is read and before any job is submitted: the run posts nothing,
submits nothing, and leaves the caller's `fields` list untouched. -/
theorem c6_csv_missing_config (xmlLines : List String)
    (rows : List (List String)) (delimiter : Option String)
    (fields : Option (List String)) (unique_id keep_row : Bool)
    (uids : List String) (h : delimiter = none ∨ fields = none) :
    start_index "csv" xmlLines rows delimiter fields unique_id keep_row uids =
      { posted := [], submitted := [],
        raised := some "csv file_format must have not None delimiter",
        fieldsAfter := fields } := by
  unfold start_index
  rw [if_neg (by decide), if_pos rfl]
  rcases h with h | h <;> subst h
  · cases fields <;> rfl
  · cases delimiter <;> rfl

/-- Witness for `c6_csv_missing_config`: `csv` format with a `fields`
list but no delimiter. -/
theorem c6_csv_missing_config_witness :
    ((none : Option String) = none ∨ (some ["f"] : Option (List String)) = none) ∧
    start_index "csv" [] [["x"]] none (some ["f"]) true false ["u"] =
      { posted := [], submitted := [],
        raised := some "csv file_format must have not None delimiter",
        fieldsAfter := some ["f"] } :=
  ⟨Or.inl rfl,
   c6_csv_missing_config [] [["x"]] none (some ["f"]) true false ["u"] (Or.inl rfl)⟩

/-- Claim C8, counterexample: on a file whose single physical line is
`"a \n"` (a trailing space before the newline), `_xmltostr` produces
`"a "`: `line.strip(' ')` cannot remove the trailing space because the
newline is still the last character, and `rstrip('\n')` then removes
only the newline. The claim's per-line normalization ("removing
incidental leading/trailing whitespace and the line terminator") would
produce `"a"`, so the posted payload differs from the claimed one. -/
theorem c8_counterexample :
    start_index "solrxml" ["a \n"] [] none none true false [] =
      { posted := ["a "], submitted := [], raised := none, fieldsAfter := none } ∧
    specXmlToStr ["a \n"] = "a" ∧
    (("a " : String) = "a") = False := by
  refine ⟨by decide, by decide, by simp⟩

/-- Claim C8, amended: in `solrxml` mode `start_index` reads the whole
file and posts exactly one job, whose payload is the concatenation over
the physical lines of `line.strip(' ').rstrip('\n')`: leading and
trailing SPACE characters are removed, then trailing newline
characters; spaces sitting immediately before the line terminator (and
tab characters anywhere) are retained. No pool job is submitted and no
error is raised. -/
theorem c8_solrxml_one_job (xmlLines : List String)
    (rows : List (List String)) (delimiter : Option String)
    (fields : Option (List String)) (unique_id keep_row : Bool)
    (uids : List String) :
    start_index "solrxml" xmlLines rows delimiter fields unique_id keep_row uids =
      { posted := [String.join (xmlLines.map
          (fun l => pyRstripNewline (pyStripSpace l)))],
        submitted := [], raised := none, fieldsAfter := fields } := by
  unfold start_index
  rw [if_pos rfl]
  simp only [xmltostr]
  rw [foldl_append_join, String.empty_append]

/-- Claim C9, confirmed: a `csv` run with `keep_row` true appends
`"row"` to the caller's `fields` list in place (modelled by the
`fieldsAfter` component): after the call the list is `fields ++ ["row"]`,
one element longer, and a second run reusing that same list operates on
a schema already ending in `"row"` and leaves the list as
`fields ++ ["row", "row"]`. -/
theorem c9_fields_mutation (xmlLines : List String)
    (rows rows2 : List (List String)) (delim : String) (fs : List String)
    (u1 u2 : Bool) (uids uids2 : List String) :
    (start_index "csv" xmlLines rows (some delim) (some fs) u1 true uids).fieldsAfter =
      some (fs ++ ["row"]) ∧
    (fs ++ ["row"]).length = fs.length + 1 ∧
    (start_index "csv" xmlLines rows2 (some delim) (some (fs ++ ["row"]))
        u2 true uids2).fieldsAfter = some (fs ++ ["row", "row"]) := by
  rw [start_index_csv, start_index_csv]
  refine ⟨by simp [data_iter], by simp, ?_⟩
  simp [data_iter]

/-- Claim C10, confirmed: with `unique_id` false, `_get_data` is
deterministic — its output does not depend on the ambient
identifier-generation state (modelled by the `uid` argument), so two
runs on equal `values` and `fields` lists return equal payload
strings. -/
theorem c10_deterministic (values fields : List String) (uid1 uid2 : String) :
    get_data values fields false uid1 = get_data values fields false uid2 := rfl

end Pysolrq
